import Mathlib

/-!
# Verification of the Firebase remote-config sync script (src/main.py)

This file gives a shallow embedding of `ManagedRemoteConfigService` from
`src/main.py` and settles the frozen claims about it.

Modelling decisions, applied consistently below:

* JSON values (`Json`) carry integers only (the script's templates are opaque
  JSON; floating point is outside the model).  `json.dumps` is modelled by
  `dumpsJson` (default separators, escaping of quote, backslash, newline, tab
  and carriage return; `\uXXXX` escaping of other control characters and of
  non-ASCII text is outside the model, which changes no semantic content).
  `json.loads` is modelled by `loadsJson`, a recursive-descent parser over the
  same grammar; like CPython it builds objects by in-place-overwriting
  insertion, so later duplicate keys win while keeping the first position.
* Python runtime errors are the constructors of `PyErr`; a function that can
  raise returns `Except PyErr _`.
* Side effects (HTTP requests, snapshot file writes, `print` output) are
  returned as an explicit `List Event` trace; the file system is a function
  `String → Option String`; HTTP responses are supplied by a `World` record.
* Logging calls through `logger` are not modelled (they carry no control flow
  except `resp.headers[ETag]` lookups, which are modelled where they occur).
-/

/-- JSON values as produced by `json.loads`: objects are association lists in
insertion order, numbers are restricted to integers. -/
inductive Json where
  | null : Json
  | bool (b : Bool) : Json
  | num (n : Int) : Json
  | str (s : String) : Json
  | arr (elems : List Json) : Json
  | obj (fields : List (String × Json)) : Json

/-- Python dict lookup on an association list (first matching key). -/
def dictGet (fields : List (String × Json)) (k : String) : Option Json :=
  match fields with
  | [] => none
  | (k1, v) :: rest => if k1 = k then some v else dictGet rest k

/-- Python dict assignment `d[k] = v`: overwrite in place (keeping the key's
original position), else append at the end, as CPython dicts do. -/
def dictSet (fields : List (String × Json)) (k : String) (v : Json) :
    List (String × Json) :=
  match fields with
  | [] => [(k, v)]
  | (k1, v1) :: rest =>
    if k1 = k then (k1, v) :: rest else (k1, v1) :: dictSet rest k v

theorem dictGet_dictSet_self (l : List (String × Json)) (k : String) (v : Json) :
    dictGet (dictSet l k v) k = some v := by
  induction l with
  | nil => simp [dictGet, dictSet]
  | cons p rest ih =>
    obtain ⟨k1, v1⟩ := p
    by_cases h : k1 = k
    · simp [dictGet, dictSet, h]
    · simp [dictGet, dictSet, h, ih]

theorem dictGet_dictSet_ne (l : List (String × Json)) (k k2 : String) (v : Json)
    (h : k2 ≠ k) : dictGet (dictSet l k v) k2 = dictGet l k2 := by
  have hne : ¬ k = k2 := fun hh => h hh.symm
  induction l with
  | nil => simp [dictGet, dictSet, hne]
  | cons p rest ih =>
    obtain ⟨k1, v1⟩ := p
    by_cases hk : k1 = k
    · subst hk
      simp [dictGet, dictSet, hne]
    · by_cases hk2 : k1 = k2
      · simp [dictGet, dictSet, hk, hk2, h]
      · simp [dictGet, dictSet, hk, hk2, ih]

theorem dictSet_dictSet_self (l : List (String × Json)) (k : String) (v w : Json) :
    dictSet (dictSet l k v) k w = dictSet l k w := by
  induction l with
  | nil => simp [dictSet]
  | cons p rest ih =>
    obtain ⟨k1, v1⟩ := p
    by_cases h : k1 = k
    · simp [dictSet, h]
    · simp [dictSet, h, ih]

theorem dictSet_eq_of_get (l : List (String × Json)) (k : String) (v : Json)
    (h : dictGet l k = some v) : dictSet l k v = l := by
  induction l with
  | nil => simp [dictGet] at h
  | cons p rest ih =>
    obtain ⟨k1, v1⟩ := p
    by_cases hk : k1 = k
    · subst hk
      simp [dictGet] at h
      simp [dictSet, h]
    · simp [dictGet, hk] at h
      simp [dictSet, hk, ih h]

/-- A decimal digit character. -/
def digitChar (d : Nat) : Char :=
  if d = 0 then '0' else if d = 1 then '1' else if d = 2 then '2'
  else if d = 3 then '3' else if d = 4 then '4' else if d = 5 then '5'
  else if d = 6 then '6' else if d = 7 then '7' else if d = 8 then '8' else '9'

/-- Worker for `natToChars`; the fuel only bounds the digit count. -/
def natToCharsAux : Nat → Nat → List Char
  | 0, _ => []
  | fuel + 1, n =>
    if n < 10 then [digitChar n]
    else natToCharsAux fuel (n / 10) ++ [digitChar (n % 10)]

/-- Decimal digits of a natural number, most significant first, as Python's
`str` (hence `json.dumps`) prints integers. -/
def natToChars (n : Nat) : List Char := natToCharsAux (n + 1) n

theorem natToCharsAux_irrel : ∀ n f1 f2, n < f1 → n < f2 →
    natToCharsAux f1 n = natToCharsAux f2 n := by
  intro n
  induction n using Nat.strong_induction_on with
  | _ n ih =>
    intro f1 f2 h1 h2
    match f1, f2 with
    | g1 + 1, g2 + 1 =>
      by_cases h : n < 10
      · simp [natToCharsAux, h]
      · have hdiv : n / 10 < n := Nat.div_lt_self (by omega) (by omega)
        simp only [natToCharsAux, h, if_false, ite_false]
        rw [ih (n / 10) hdiv g1 g2 (by omega) (by omega)]

theorem natToChars_eq (n : Nat) : natToChars n =
    if n < 10 then [digitChar n]
    else natToChars (n / 10) ++ [digitChar (n % 10)] := by
  by_cases h : n < 10
  · simp [natToChars, natToCharsAux, h]
  · have hdiv : n / 10 < n := Nat.div_lt_self (by omega) (by omega)
    rw [if_neg h]
    calc natToChars n
        = if n < 10 then [digitChar n]
          else natToCharsAux n (n / 10) ++ [digitChar (n % 10)] := rfl
      _ = natToCharsAux n (n / 10) ++ [digitChar (n % 10)] := by rw [if_neg h]
      _ = natToCharsAux (n / 10 + 1) (n / 10) ++ [digitChar (n % 10)] := by
          rw [natToCharsAux_irrel (n / 10) n (n / 10 + 1) (by omega) (by omega)]
      _ = natToChars (n / 10) ++ [digitChar (n % 10)] := rfl

/-- `json.dumps` of an integer. -/
def serializeInt (n : Int) : List Char :=
  if n < 0 then '-' :: natToChars n.natAbs else natToChars n.natAbs

/-- `json.dumps` escaping of one string character: quote, backslash and the
common control characters; `\uXXXX` escapes (other control characters,
`ensure_ascii` escaping of non-ASCII text) are outside the model, which only
changes the spelling of the serialized form, not its semantics. -/
def escChar (c : Char) : List Char :=
  if c = '"' then ['\\', '"']
  else if c = '\\' then ['\\', '\\']
  else if c = '\n' then ['\\', 'n']
  else if c = '\t' then ['\\', 't']
  else if c = '\r' then ['\\', 'r']
  else [c]

def escList (s : List Char) : List Char :=
  match s with
  | [] => []
  | c :: rest => escChar c ++ escList rest

/-- `json.dumps` of a string literal. -/
def serializeStr (s : String) : List Char :=
  '"' :: (escList s.data ++ ['"'])

mutual

/-- `json.dumps` with its default separators (item separator comma-space,
key separator colon-space). -/
def serialize : Json → List Char
  | .null => "null".data
  | .bool true => "true".data
  | .bool false => "false".data
  | .num n => serializeInt n
  | .str s => serializeStr s
  | .arr [] => ['[', ']']
  | .arr (j :: js) => '[' :: (serialize j ++ serializeArrTail js)
  | .obj [] => ['{', '}']
  | .obj (f :: fs) => '{' :: (serializeField f ++ serializeObjTail fs)

def serializeArrTail : List Json → List Char
  | [] => [']']
  | j :: js => ',' :: ' ' :: (serialize j ++ serializeArrTail js)

def serializeField : String × Json → List Char
  | (k, v) => serializeStr k ++ ':' :: ' ' :: serialize v

def serializeObjTail : List (String × Json) → List Char
  | [] => ['}']
  | f :: fs => ',' :: ' ' :: (serializeField f ++ serializeObjTail fs)

end

/-- The `json.dumps` model at `String` type. -/
def dumpsJson (j : Json) : String := String.mk (serialize j)

mutual

/-- Fuel needed by the recursive-descent parser to consume a value. -/
def weight : Json → Nat
  | .null => 1
  | .bool _ => 1
  | .num _ => 1
  | .str _ => 1
  | .arr l => 1 + weightList l
  | .obj l => 1 + weightFields l

def weightList : List Json → Nat
  | [] => 1
  | j :: js => 1 + weight j + weightList js

def weightFields : List (String × Json) → Nat
  | [] => 1
  | f :: fs => 1 + weight f.2 + weightFields fs

end

/-- Characters the modelled serializer can emit inside a string literal
(everything except the control characters that would need `\uXXXX`). -/
def wfChar (c : Char) : Bool :=
  (c == '\n') || (c == '\t') || (c == '\r') || Nat.ble 32 c.toNat

def wfStr (s : String) : Bool := s.data.all wfChar

def keyMem (k : String) : List String → Bool
  | [] => false
  | k2 :: rest => (k2 == k) || keyMem k rest

def keysNodup (ks : List String) : Bool :=
  match ks with
  | [] => true
  | k :: rest => (!keyMem k rest) && keysNodup rest

mutual

/-- Values in the image of `json.loads` (objects have no duplicate keys) whose
strings avoid the control characters left out of the escaping model. -/
def wfJson : Json → Bool
  | .null => true
  | .bool _ => true
  | .num _ => true
  | .str s => wfStr s
  | .arr l => wfList l
  | .obj l => keysNodup (l.map Prod.fst) && wfFields l

def wfList : List Json → Bool
  | [] => true
  | j :: js => wfJson j && wfList js

def wfFields : List (String × Json) → Bool
  | [] => true
  | f :: fs => wfStr f.1 && wfJson f.2 && wfFields fs

end

def isWsChar (c : Char) : Bool :=
  (c == ' ') || (c == '\t') || (c == '\n') || (c == '\r')

def skipWs (cs : List Char) : List Char := cs.dropWhile isWsChar

/-- JSON string escape codes understood by the `json.loads` model. -/
def unescapeChar (c : Char) : Option Char :=
  if c = '"' then some '"'
  else if c = '\\' then some '\\'
  else if c = '/' then some '/'
  else if c = 'n' then some '\n'
  else if c = 't' then some '\t'
  else if c = 'r' then some '\r'
  else none

/-- Body of a JSON string literal after the opening quote: returns the decoded
characters and the input after the closing quote. -/
def parseStringBody : List Char → Option (List Char × List Char)
  | [] => none
  | c :: rest =>
    if c = '"' then some ([], rest)
    else if c = '\\' then
      match rest with
      | [] => none
      | e :: rest2 =>
        match unescapeChar e with
        | none => none
        | some u =>
          match parseStringBody rest2 with
          | none => none
          | some (s, r) => some (u :: s, r)
    else if c.toNat < 32 then none
    else
      match parseStringBody rest with
      | none => none
      | some (s, r) => some (c :: s, r)

/-- Consume a run of decimal digits, accumulating their value. -/
def parseNat : List Char → Nat → Nat × List Char
  | [], acc => (acc, [])
  | c :: rest, acc =>
    if c.isDigit then parseNat rest (acc * 10 + (c.toNat - 48)) else (acc, c :: rest)

/-- CPython builds a dict by repeated insertion: a duplicate key keeps its
first position and takes its last value. -/
def insertAllFields (acc : List (String × Json)) :
    List (String × Json) → List (String × Json)
  | [] => acc
  | (k, v) :: rest => insertAllFields (dictSet acc k v) rest

/-- An object key (a string literal) followed by the colon key separator. -/
def parseKeyColon (cs : List Char) : Option (String × List Char) :=
  match skipWs cs with
  | [] => none
  | c :: rest =>
    if c = '"' then
      match parseStringBody rest with
      | none => none
      | some (k, r1) =>
        match skipWs r1 with
        | ':' :: r2 => some (String.mk k, r2)
        | _ => none
    else none

mutual

/-- Recursive-descent model of `json.loads`: one JSON value (fuel bounds the
recursion; `loadsJson` supplies enough for any input it can accept). -/
def parseValue : Nat → List Char → Option (Json × List Char)
  | 0, _ => none
  | fuel + 1, cs =>
    match skipWs cs with
    | [] => none
    | c :: rest =>
      if c = '"' then
        match parseStringBody rest with
        | none => none
        | some (s, r) => some (.str (String.mk s), r)
      else if c = '[' then
        match parseItems fuel rest with
        | none => none
        | some (l, r) => some (.arr l, r)
      else if c = '{' then
        match parseFields fuel rest with
        | none => none
        | some (fs, r) => some (.obj (insertAllFields [] fs), r)
      else if c = '-' then
        match rest with
        | d :: _ =>
          if d.isDigit then
            let p := parseNat rest 0
            some (.num (-(p.1 : Int)), p.2)
          else none
        | [] => none
      else if c.isDigit then
        let p := parseNat (c :: rest) 0
        some (.num (p.1 : Int), p.2)
      else if c = 't' then
        match rest with
        | 'r' :: 'u' :: 'e' :: r => some (.bool true, r)
        | _ => none
      else if c = 'f' then
        match rest with
        | 'a' :: 'l' :: 's' :: 'e' :: r => some (.bool false, r)
        | _ => none
      else if c = 'n' then
        match rest with
        | 'u' :: 'l' :: 'l' :: r => some (.null, r)
        | _ => none
      else none

/-- Array contents directly after the opening bracket. -/
def parseItems : Nat → List Char → Option (List Json × List Char)
  | 0, _ => none
  | fuel + 1, cs =>
    match skipWs cs with
    | [] => none
    | c :: rest =>
      if c = ']' then some ([], rest)
      else
        match parseValue fuel (c :: rest) with
        | none => none
        | some (j, r1) =>
          match parseItemsTail fuel r1 with
          | none => none
          | some (js, r2) => some (j :: js, r2)

/-- Array contents after one element: a comma and an element, or the close. -/
def parseItemsTail : Nat → List Char → Option (List Json × List Char)
  | 0, _ => none
  | fuel + 1, cs =>
    match skipWs cs with
    | [] => none
    | c :: rest =>
      if c = ']' then some ([], rest)
      else if c = ',' then
        match parseValue fuel rest with
        | none => none
        | some (j, r1) =>
          match parseItemsTail fuel r1 with
          | none => none
          | some (js, r2) => some (j :: js, r2)
      else none

/-- Object contents directly after the opening brace. -/
def parseFields : Nat → List Char → Option (List (String × Json) × List Char)
  | 0, _ => none
  | fuel + 1, cs =>
    match skipWs cs with
    | [] => none
    | c :: rest =>
      if c = '}' then some ([], rest)
      else
        match parseKeyColon (c :: rest) with
        | none => none
        | some (k, r1) =>
          match parseValue fuel r1 with
          | none => none
          | some (v, r2) =>
            match parseFieldsTail fuel r2 with
            | none => none
            | some (fs, r3) => some ((k, v) :: fs, r3)

/-- Object contents after one member: a comma and a member, or the close. -/
def parseFieldsTail : Nat → List Char → Option (List (String × Json) × List Char)
  | 0, _ => none
  | fuel + 1, cs =>
    match skipWs cs with
    | [] => none
    | c :: rest =>
      if c = '}' then some ([], rest)
      else if c = ',' then
        match parseKeyColon rest with
        | none => none
        | some (k, r1) =>
          match parseValue fuel r1 with
          | none => none
          | some (v, r2) =>
            match parseFieldsTail fuel r2 with
            | none => none
            | some (fs, r3) => some ((k, v) :: fs, r3)
      else none

end

/-- The `json.loads` model: parse one JSON document, allowing only trailing
whitespace after it.  (Restrictions against `json.loads`: numbers are
integers, `\b`, `\f` and `\uXXXX` escapes are not recognised.) -/
def loadsJson (s : String) : Option Json :=
  match parseValue (2 * s.length + 2) s.data with
  | none => none
  | some (j, rest) => if skipWs rest = [] then some j else none

/-- The input does not begin with a decimal digit, so a preceding numeral
cannot absorb it. -/
def noLeadingDigit : List Char → Prop
  | [] => True
  | c :: _ => c.isDigit = false

theorem digitChar_props (d : Nat) (h : d < 10) :
    (digitChar d).isDigit = true ∧ (digitChar d).toNat - 48 = d ∧
    isWsChar (digitChar d) = false ∧ digitChar d ≠ '"' ∧ digitChar d ≠ '[' ∧
    digitChar d ≠ '{' ∧ digitChar d ≠ '-' ∧ digitChar d ≠ ']' ∧
    digitChar d ≠ '}' ∧ digitChar d ≠ ',' ∧ digitChar d ≠ 't' ∧
    digitChar d ≠ 'f' ∧ digitChar d ≠ 'n' := by
  interval_cases d <;> decide

theorem natToChars_head (n : Nat) :
    ∃ d tl, d < 10 ∧ natToChars n = digitChar d :: tl := by
  induction n using Nat.strong_induction_on with
  | _ n ih =>
    by_cases h : n < 10
    · exact ⟨n, [], h, by rw [natToChars_eq]; simp [h]⟩
    · obtain ⟨d, tl, hd, htl⟩ := ih (n / 10) (Nat.div_lt_self (by omega) (by omega))
      exact ⟨d, tl ++ [digitChar (n % 10)], hd, by rw [natToChars_eq]; simp [h, htl]⟩

theorem parseNat_stop (cs : List Char) (acc : Nat) (h : noLeadingDigit cs) :
    parseNat cs acc = (acc, cs) := by
  cases cs with
  | nil => rfl
  | cons c rest =>
    simp only [noLeadingDigit] at h
    simp [parseNat, h]

theorem natToChars_parse (n : Nat) :
    ∀ acc rest, parseNat (natToChars n ++ rest) acc =
      parseNat rest (acc * 10 ^ (natToChars n).length + n) := by
  induction n using Nat.strong_induction_on with
  | _ n ih =>
    intro acc rest
    by_cases h : n < 10
    · rw [natToChars_eq]
      simp only [h, if_true]
      obtain ⟨h1, h2, -⟩ := digitChar_props n h
      simp [parseNat, h1, h2]
    · rw [natToChars_eq]
      simp only [h, if_false]
      rw [List.append_assoc, ih (n / 10) (Nat.div_lt_self (by omega) (by omega))]
      obtain ⟨h1, h2, -⟩ := digitChar_props (n % 10) (Nat.mod_lt _ (by omega))
      simp only [List.cons_append, List.nil_append, parseNat, h1, if_true, h2,
        List.length_append, List.length_cons, List.length_nil]
      congr 1
      have hdm : 10 * (n / 10) + n % 10 = n := Nat.div_add_mod n 10
      have hp : 10 ^ ((natToChars (n / 10)).length + (0 + 1)) =
          10 ^ (natToChars (n / 10)).length * 10 := by
        rw [pow_succ]
      rw [hp]
      ring_nf
      omega

theorem skipWs_not_ws (c : Char) (cs : List Char) (h : isWsChar c = false) :
    skipWs (c :: cs) = c :: cs := by
  simp [skipWs, List.dropWhile, h]

theorem skipWs_ws (c : Char) (cs : List Char) (h : isWsChar c = true) :
    skipWs (c :: cs) = skipWs cs := by
  simp [skipWs, List.dropWhile, h]

theorem parseValue_ws (fuel : Nat) (c : Char) (cs : List Char)
    (h : isWsChar c = true) :
    parseValue fuel (c :: cs) = parseValue fuel cs := by
  cases fuel with
  | zero => rfl
  | succ f => simp only [parseValue, skipWs_ws c cs h]

theorem stringMk_data (s : String) : String.mk s.data = s := rfl

theorem parseStringBody_escList (s rest : List Char) (h : s.all wfChar = true) :
    parseStringBody (escList s ++ '"' :: rest) = some (s, rest) := by
  induction s with
  | nil =>
    rw [escList, List.nil_append, parseStringBody.eq_def]
    simp
  | cons c cs ih =>
    rw [List.all_cons, Bool.and_eq_true] at h
    have ihc := ih h.2
    by_cases h1 : c = '"'
    · subst h1
      simp only [escList, escChar, if_pos rfl, List.cons_append, List.nil_append,
        List.append_assoc]
      rw [parseStringBody.eq_def]
      simp [unescapeChar, ihc]
    · by_cases h2 : c = '\\'
      · subst h2
        simp only [escList, escChar, List.cons_append, List.nil_append,
          List.append_assoc]
        rw [parseStringBody.eq_def]
        simp [unescapeChar, ihc]
      · by_cases h3 : c = '\n'
        · subst h3
          simp only [escList, escChar, List.cons_append, List.nil_append,
            List.append_assoc]
          rw [parseStringBody.eq_def]
          simp [unescapeChar, ihc]
        · by_cases h4 : c = '\t'
          · subst h4
            simp only [escList, escChar, List.cons_append, List.nil_append,
              List.append_assoc]
            rw [parseStringBody.eq_def]
            simp [unescapeChar, ihc]
          · by_cases h5 : c = '\r'
            · subst h5
              simp only [escList, escChar, List.cons_append, List.nil_append,
                List.append_assoc]
              rw [parseStringBody.eq_def]
              simp [unescapeChar, ihc]
            · have hge : ¬ c.toNat < 32 := by
                have hc := h.1
                simp [wfChar, h3, h4, h5] at hc
                omega
              simp only [escList, escChar, h1, h2, h3, h4, h5, if_false,
                List.cons_append, List.nil_append, List.append_assoc]
              rw [parseStringBody.eq_def]
              simp [h1, h2, hge, ihc]

/-- What follows the opening bracket in `serialize` of an array. -/
def serializeItems : List Json → List Char
  | [] => [']']
  | j :: js => serialize j ++ serializeArrTail js

/-- What follows the opening brace in `serialize` of an object. -/
def serializeMembers : List (String × Json) → List Char
  | [] => ['}']
  | f :: fs => serializeField f ++ serializeObjTail fs

theorem serialize_arr (l : List Json) :
    serialize (.arr l) = '[' :: serializeItems l := by
  cases l <;> rfl

theorem serialize_obj (l : List (String × Json)) :
    serialize (.obj l) = '{' :: serializeMembers l := by
  cases l <;> rfl

theorem weight_pos (j : Json) : 1 ≤ weight j := by
  cases j <;> simp [weight]

theorem weightList_pos (l : List Json) : 1 ≤ weightList l := by
  cases l <;> simp [weightList] <;> omega

theorem weightFields_pos (l : List (String × Json)) : 1 ≤ weightFields l := by
  cases l <;> simp [weightFields] <;> omega

theorem serialize_head (j : Json) :
    ∃ c tl, serialize j = c :: tl ∧ c ≠ ']' ∧ c ≠ '}' ∧ isWsChar c = false := by
  cases j with
  | num n =>
    by_cases hn : n < 0
    · exact ⟨'-', natToChars n.natAbs, by simp [serialize, serializeInt, hn], by decide⟩
    · obtain ⟨d, tl, hd, htl⟩ := natToChars_head n.natAbs
      obtain ⟨-, -, hws, -, -, -, -, hrb, hcb, -⟩ := digitChar_props d hd
      exact ⟨digitChar d, tl, by simp [serialize, serializeInt, hn, htl], hrb, hcb, hws⟩
  | bool b => cases b with
    | false => exact ⟨'f', _, rfl, by decide⟩
    | true => exact ⟨'t', _, rfl, by decide⟩
  | null => exact ⟨'n', _, rfl, by decide⟩
  | str s => exact ⟨'"', _, rfl, by decide⟩
  | arr l => exact ⟨'[', _, by rw [serialize_arr], by decide⟩
  | obj l => exact ⟨'{', _, by rw [serialize_obj], by decide⟩

theorem noLeadingDigit_arrTail (l : List Json) (X : List Char) :
    noLeadingDigit (serializeArrTail l ++ X) := by
  cases l <;> simp [serializeArrTail, noLeadingDigit]

theorem noLeadingDigit_objTail (l : List (String × Json)) (X : List Char) :
    noLeadingDigit (serializeObjTail l ++ X) := by
  cases l <;> simp [serializeObjTail, noLeadingDigit]

theorem keyMem_false_ne (k : String) (ks : List String) (h : keyMem k ks = false) :
    ∀ k2 ∈ ks, k2 ≠ k := by
  induction ks with
  | nil => simp
  | cons a rest ih =>
    simp only [keyMem, Bool.or_eq_false_iff] at h
    intro k2 hk2
    rcases List.mem_cons.mp hk2 with rfl | hk2
    · simpa using h.1
    · exact ih h.2 k2 hk2

theorem dictGet_append_none (l1 l2 : List (String × Json)) (k : String)
    (h : dictGet l1 k = none) : dictGet (l1 ++ l2) k = dictGet l2 k := by
  induction l1 with
  | nil => simp
  | cons p rest ih =>
    obtain ⟨k1, v1⟩ := p
    by_cases hk : k1 = k
    · simp [dictGet, hk] at h
    · simp only [dictGet, hk, if_false] at h
      simp [dictGet, hk, ih h]

theorem dictSet_append_of_none (l : List (String × Json)) (k : String) (v : Json)
    (h : dictGet l k = none) : dictSet l k v = l ++ [(k, v)] := by
  induction l with
  | nil => simp [dictSet]
  | cons p rest ih =>
    obtain ⟨k1, v1⟩ := p
    by_cases hk : k1 = k
    · simp [dictGet, hk] at h
    · simp only [dictGet, hk, if_false] at h
      simp [dictSet, hk, ih h]

theorem insertAllFields_nodup (fs : List (String × Json)) : ∀ acc,
    (∀ p ∈ fs, dictGet acc p.1 = none) → keysNodup (fs.map Prod.fst) = true →
    insertAllFields acc fs = acc ++ fs := by
  induction fs with
  | nil => intro acc _ _; simp [insertAllFields]
  | cons p rest ih =>
    intro acc hacc hnd
    obtain ⟨k, v⟩ := p
    simp only [List.map_cons, keysNodup, Bool.and_eq_true, Bool.not_eq_eq_eq_not,
      Bool.not_true] at hnd
    rw [insertAllFields,
      dictSet_append_of_none acc k v (hacc (k, v) (List.mem_cons_self _ _)),
      ih (acc ++ [(k, v)]) ?_ hnd.2]
    · simp
    · intro p hp
      rw [dictGet_append_none acc [(k, v)] p.1 (hacc p (List.mem_cons_of_mem _ hp))]
      have hne : p.1 ≠ k :=
        keyMem_false_ne k (rest.map Prod.fst) hnd.1 p.1 (List.mem_map_of_mem _ hp)
      have hne2 : ¬ k = p.1 := fun hh => hne hh.symm
      simp [dictGet, hne2]

theorem insertAllFields_eq_self (fs : List (String × Json))
    (h : keysNodup (fs.map Prod.fst) = true) : insertAllFields [] fs = fs := by
  have := insertAllFields_nodup fs [] (by intro p _; rfl) h
  simpa using this

theorem parseValue_succ_null (f : Nat) (cs : List Char) :
    parseValue (f + 1) ('n' :: 'u' :: 'l' :: 'l' :: cs) = some (.null, cs) := by
  rw [parseValue.eq_def]
  simp [skipWs_not_ws _ _ (by decide : isWsChar 'n' = false)]

theorem parseValue_succ_true (f : Nat) (cs : List Char) :
    parseValue (f + 1) ('t' :: 'r' :: 'u' :: 'e' :: cs) = some (.bool true, cs) := by
  rw [parseValue.eq_def]
  simp [skipWs_not_ws _ _ (by decide : isWsChar 't' = false)]

theorem parseValue_succ_false (f : Nat) (cs : List Char) :
    parseValue (f + 1) ('f' :: 'a' :: 'l' :: 's' :: 'e' :: cs) =
      some (.bool false, cs) := by
  rw [parseValue.eq_def]
  simp [skipWs_not_ws _ _ (by decide : isWsChar 'f' = false)]

theorem parseValue_succ_quote (f : Nat) (cs : List Char) :
    parseValue (f + 1) ('"' :: cs) =
      match parseStringBody cs with
      | none => none
      | some (s, r) => some (.str (String.mk s), r) := by
  rw [parseValue.eq_def]
  simp [skipWs_not_ws _ _ (by decide : isWsChar '"' = false)]

theorem parseValue_succ_lbracket (f : Nat) (cs : List Char) :
    parseValue (f + 1) ('[' :: cs) =
      match parseItems f cs with
      | none => none
      | some (l, r) => some (.arr l, r) := by
  rw [parseValue.eq_def]
  simp [skipWs_not_ws _ _ (by decide : isWsChar '[' = false)]

theorem parseValue_succ_lbrace (f : Nat) (cs : List Char) :
    parseValue (f + 1) ('{' :: cs) =
      match parseFields f cs with
      | none => none
      | some (fs, r) => some (.obj (insertAllFields [] fs), r) := by
  rw [parseValue.eq_def]
  simp [skipWs_not_ws _ _ (by decide : isWsChar '{' = false)]

theorem parseValue_succ_digit (f m : Nat) (rest : List Char)
    (hr : noLeadingDigit rest) :
    parseValue (f + 1) (natToChars m ++ rest) = some (.num (m : Int), rest) := by
  obtain ⟨d, tl, hd, htl⟩ := natToChars_head m
  obtain ⟨hdig, -, hws, hq, hlb, hbr, hmin, -, -, -, -, -, -⟩ := digitChar_props d hd
  rw [htl, List.cons_append, parseValue.eq_def]
  simp only [skipWs_not_ws _ _ hws, hq, hlb, hbr, hmin, hdig, if_false, if_true,
    ite_true, ite_false]
  rw [← List.cons_append, ← htl, natToChars_parse, Nat.zero_mul, Nat.zero_add,
    parseNat_stop rest m hr]

theorem parseValue_succ_neg (f m : Nat) (rest : List Char)
    (hr : noLeadingDigit rest) :
    parseValue (f + 1) ('-' :: (natToChars m ++ rest)) =
      some (.num (-(m : Int)), rest) := by
  obtain ⟨d, tl, hd, htl⟩ := natToChars_head m
  obtain ⟨hdig, -, -, -, -, -, -, -, -, -, -, -, -⟩ := digitChar_props d hd
  rw [htl, List.cons_append, parseValue.eq_def]
  simp only [skipWs_not_ws _ _ (by decide : isWsChar '-' = false), hdig, if_false,
    if_true, ite_true, ite_false]
  rw [← List.cons_append, ← htl, natToChars_parse, Nat.zero_mul, Nat.zero_add,
    parseNat_stop rest m hr]
  simp

theorem parseItems_succ_close (f : Nat) (cs : List Char) :
    parseItems (f + 1) (']' :: cs) = some ([], cs) := by
  rw [parseItems.eq_def]
  simp [skipWs_not_ws _ _ (by decide : isWsChar ']' = false)]

theorem parseItems_succ_value (f : Nat) (c : Char) (cs : List Char)
    (hws : isWsChar c = false) (hc : c ≠ ']') :
    parseItems (f + 1) (c :: cs) =
      match parseValue f (c :: cs) with
      | none => none
      | some (j, r1) =>
        match parseItemsTail f r1 with
        | none => none
        | some (js, r2) => some (j :: js, r2) := by
  rw [parseItems.eq_def]
  simp [skipWs_not_ws _ _ hws, hc]

theorem parseItemsTail_succ_close (f : Nat) (cs : List Char) :
    parseItemsTail (f + 1) (']' :: cs) = some ([], cs) := by
  rw [parseItemsTail.eq_def]
  simp [skipWs_not_ws _ _ (by decide : isWsChar ']' = false)]

theorem parseItemsTail_succ_comma (f : Nat) (cs : List Char) :
    parseItemsTail (f + 1) (',' :: cs) =
      match parseValue f cs with
      | none => none
      | some (j, r1) =>
        match parseItemsTail f r1 with
        | none => none
        | some (js, r2) => some (j :: js, r2) := by
  rw [parseItemsTail.eq_def]
  simp [skipWs_not_ws _ _ (by decide : isWsChar ',' = false)]

theorem parseFields_succ_close (f : Nat) (cs : List Char) :
    parseFields (f + 1) ('}' :: cs) = some ([], cs) := by
  rw [parseFields.eq_def]
  simp [skipWs_not_ws _ _ (by decide : isWsChar '}' = false)]

theorem parseFields_succ_member (f : Nat) (c : Char) (cs : List Char)
    (hws : isWsChar c = false) (hc : c ≠ '}') :
    parseFields (f + 1) (c :: cs) =
      match parseKeyColon (c :: cs) with
      | none => none
      | some (k, r1) =>
        match parseValue f r1 with
        | none => none
        | some (v, r2) =>
          match parseFieldsTail f r2 with
          | none => none
          | some (fs, r3) => some ((k, v) :: fs, r3) := by
  rw [parseFields.eq_def]
  simp [skipWs_not_ws _ _ hws, hc]

theorem parseFieldsTail_succ_close (f : Nat) (cs : List Char) :
    parseFieldsTail (f + 1) ('}' :: cs) = some ([], cs) := by
  rw [parseFieldsTail.eq_def]
  simp [skipWs_not_ws _ _ (by decide : isWsChar '}' = false)]

theorem parseFieldsTail_succ_comma (f : Nat) (cs : List Char) :
    parseFieldsTail (f + 1) (',' :: cs) =
      match parseKeyColon cs with
      | none => none
      | some (k, r1) =>
        match parseValue f r1 with
        | none => none
        | some (v, r2) =>
          match parseFieldsTail f r2 with
          | none => none
          | some (fs, r3) => some ((k, v) :: fs, r3) := by
  rw [parseFieldsTail.eq_def]
  simp [skipWs_not_ws _ _ (by decide : isWsChar ',' = false)]

theorem parseKeyColon_ws (c : Char) (cs : List Char) (h : isWsChar c = true) :
    parseKeyColon (c :: cs) = parseKeyColon cs := by
  simp only [parseKeyColon, skipWs_ws c cs h]

theorem parseKeyColon_spec (k : String) (X : List Char) (hk : wfStr k = true) :
    parseKeyColon (serializeStr k ++ ':' :: X) = some (k, X) := by
  simp only [serializeStr, List.cons_append, List.append_assoc,
    List.singleton_append, List.nil_append]
  rw [parseKeyColon]
  rw [skipWs_not_ws _ _ (by decide : isWsChar '"' = false)]
  simp only [if_pos rfl, reduceIte]
  rw [parseStringBody_escList k.data (':' :: X) hk]
  simp [skipWs_not_ws _ _ (by decide : isWsChar ':' = false), stringMk_data]

theorem parseFields_succ_keyval (f : Nat) (k : String) (X : List Char)
    (hk : wfStr k = true) :
    parseFields (f + 1) (serializeStr k ++ ':' :: X) =
      match parseValue f X with
      | none => none
      | some (v, r2) =>
        match parseFieldsTail f r2 with
        | none => none
        | some (fs, r3) => some ((k, v) :: fs, r3) := by
  have h1 : serializeStr k ++ ':' :: X = '"' :: (escList k.data ++ ('"' :: ':' :: X)) := by
    simp [serializeStr, List.append_assoc]
  rw [h1, parseFields_succ_member f '"' _ (by decide) (by decide), ← h1,
    parseKeyColon_spec k X hk]

theorem parseFieldsTail_succ_keyval (f : Nat) (k : String) (X : List Char)
    (hk : wfStr k = true) :
    parseFieldsTail (f + 1) (',' :: ' ' :: (serializeStr k ++ ':' :: X)) =
      match parseValue f X with
      | none => none
      | some (v, r2) =>
        match parseFieldsTail f r2 with
        | none => none
        | some (fs, r3) => some ((k, v) :: fs, r3) := by
  rw [parseFieldsTail_succ_comma, parseKeyColon_ws ' ' _ (by decide),
    parseKeyColon_spec k X hk]

theorem parser_bundle (fuel : Nat) :
    (∀ j rest, wfJson j = true → weight j ≤ fuel → noLeadingDigit rest →
      parseValue fuel (serialize j ++ rest) = some (j, rest)) ∧
    (∀ l rest, wfList l = true → weightList l ≤ fuel →
      parseItems fuel (serializeItems l ++ rest) = some (l, rest)) ∧
    (∀ l rest, wfList l = true → weightList l ≤ fuel →
      parseItemsTail fuel (serializeArrTail l ++ rest) = some (l, rest)) ∧
    (∀ fs rest, wfFields fs = true → weightFields fs ≤ fuel →
      parseFields fuel (serializeMembers fs ++ rest) = some (fs, rest)) ∧
    (∀ fs rest, wfFields fs = true → weightFields fs ≤ fuel →
      parseFieldsTail fuel (serializeObjTail fs ++ rest) = some (fs, rest)) := by
  induction fuel with
  | zero =>
    refine ⟨?_, ?_, ?_, ?_, ?_⟩
    · intro j rest _ hf _
      exact absurd hf (by have := weight_pos j; omega)
    · intro l rest _ hf
      exact absurd hf (by have := weightList_pos l; omega)
    · intro l rest _ hf
      exact absurd hf (by have := weightList_pos l; omega)
    · intro fs rest _ hf
      exact absurd hf (by have := weightFields_pos fs; omega)
    · intro fs rest _ hf
      exact absurd hf (by have := weightFields_pos fs; omega)
  | succ f ih =>
    obtain ⟨ihP, ihS, ihQ, ihT, ihR⟩ := ih
    refine ⟨?_, ?_, ?_, ?_, ?_⟩
    · intro j rest hw hf hr
      cases j with
      | null =>
        have hs : serialize Json.null = ['n', 'u', 'l', 'l'] := rfl
        rw [hs]
        simpa using parseValue_succ_null f rest
      | bool b =>
        cases b with
        | true =>
          have hs : serialize (Json.bool true) = ['t', 'r', 'u', 'e'] := rfl
          rw [hs]
          simpa using parseValue_succ_true f rest
        | false =>
          have hs : serialize (Json.bool false) = ['f', 'a', 'l', 's', 'e'] := rfl
          rw [hs]
          simpa using parseValue_succ_false f rest
      | num n =>
        by_cases hn : n < 0
        · have hs : serialize (Json.num n) = '-' :: natToChars n.natAbs := by
            simp [serialize, serializeInt, hn]
          rw [hs, List.cons_append, parseValue_succ_neg f n.natAbs rest hr]
          have hval : (-(n.natAbs : Int)) = n := by omega
          rw [hval]
        · have hs : serialize (Json.num n) = natToChars n.natAbs := by
            simp [serialize, serializeInt, hn]
          rw [hs, parseValue_succ_digit f n.natAbs rest hr]
          have hval : ((n.natAbs : Int)) = n := by omega
          rw [hval]
      | str s =>
        have hs : serialize (Json.str s) ++ rest =
            '"' :: (escList s.data ++ '"' :: rest) := by
          simp [serialize, serializeStr, List.append_assoc]
        have hwf : s.data.all wfChar = true := by
          simpa [wfJson, wfStr] using hw
        rw [hs, parseValue_succ_quote, parseStringBody_escList s.data rest hwf]
      | arr l =>
        have hwl : wfList l = true := by simpa [wfJson] using hw
        have hfl : weightList l ≤ f := by
          simp only [weight] at hf
          omega
        rw [serialize_arr, List.cons_append, parseValue_succ_lbracket,
          ihS l rest hwl hfl]
      | obj l =>
        simp only [wfJson, Bool.and_eq_true] at hw
        have hfl : weightFields l ≤ f := by
          simp only [weight] at hf
          omega
        rw [serialize_obj, List.cons_append, parseValue_succ_lbrace,
          ihT l rest hw.2 hfl]
        simp [insertAllFields_eq_self l hw.1]
    · intro l rest hwl hfl
      cases l with
      | nil => simpa [serializeItems] using parseItems_succ_close f rest
      | cons j js =>
        obtain ⟨c, tl, hser, hrb, -, hws⟩ := serialize_head j
        simp only [wfList, Bool.and_eq_true] at hwl
        have hfj : weight j ≤ f := by
          simp only [weightList] at hfl
          have := weightList_pos js
          omega
        have hfjs : weightList js ≤ f := by
          simp only [weightList] at hfl
          have := weight_pos j
          omega
        have hinput : serializeItems (j :: js) ++ rest =
            c :: (tl ++ (serializeArrTail js ++ rest)) := by
          simp [serializeItems, hser, List.append_assoc]
        rw [hinput, parseItems_succ_value f c _ hws hrb, ← List.cons_append, ← hser,
          ihP j (serializeArrTail js ++ rest) hwl.1 hfj (noLeadingDigit_arrTail js rest)]
        simp [ihQ js rest hwl.2 hfjs]
    · intro l rest hwl hfl
      cases l with
      | nil => simpa [serializeArrTail] using parseItemsTail_succ_close f rest
      | cons j js =>
        simp only [wfList, Bool.and_eq_true] at hwl
        have hfj : weight j ≤ f := by
          simp only [weightList] at hfl
          have := weightList_pos js
          omega
        have hfjs : weightList js ≤ f := by
          simp only [weightList] at hfl
          have := weight_pos j
          omega
        have hinput : serializeArrTail (j :: js) ++ rest =
            ',' :: ' ' :: (serialize j ++ (serializeArrTail js ++ rest)) := by
          simp [serializeArrTail, List.append_assoc]
        rw [hinput, parseItemsTail_succ_comma, parseValue_ws f ' ' _ (by decide),
          ihP j (serializeArrTail js ++ rest) hwl.1 hfj (noLeadingDigit_arrTail js rest)]
        simp [ihQ js rest hwl.2 hfjs]
    · intro fs rest hwf hff
      cases fs with
      | nil => simpa [serializeMembers] using parseFields_succ_close f rest
      | cons p fs2 =>
        obtain ⟨k, v⟩ := p
        simp only [wfFields, Bool.and_eq_true] at hwf
        have hfv : weight v ≤ f := by
          simp only [weightFields] at hff
          have := weightFields_pos fs2
          omega
        have hffs : weightFields fs2 ≤ f := by
          simp only [weightFields] at hff
          have := weight_pos v
          omega
        have hinput : serializeMembers ((k, v) :: fs2) ++ rest =
            serializeStr k ++ ':' :: (' ' :: (serialize v ++ (serializeObjTail fs2 ++ rest))) := by
          simp [serializeMembers, serializeField, List.append_assoc]
        rw [hinput, parseFields_succ_keyval f k _ hwf.1.1,
          parseValue_ws f ' ' _ (by decide),
          ihP v (serializeObjTail fs2 ++ rest) hwf.1.2 hfv (noLeadingDigit_objTail fs2 rest)]
        simp [ihR fs2 rest hwf.2 hffs]
    · intro fs rest hwf hff
      cases fs with
      | nil => simpa [serializeObjTail] using parseFieldsTail_succ_close f rest
      | cons p fs2 =>
        obtain ⟨k, v⟩ := p
        simp only [wfFields, Bool.and_eq_true] at hwf
        have hfv : weight v ≤ f := by
          simp only [weightFields] at hff
          have := weightFields_pos fs2
          omega
        have hffs : weightFields fs2 ≤ f := by
          simp only [weightFields] at hff
          have := weight_pos v
          omega
        have hinput : serializeObjTail ((k, v) :: fs2) ++ rest =
            ',' :: ' ' :: (serializeStr k ++ ':' :: (' ' :: (serialize v ++ (serializeObjTail fs2 ++ rest)))) := by
          simp [serializeObjTail, serializeField, List.append_assoc]
        rw [hinput, parseFieldsTail_succ_keyval f k _ hwf.1.1,
          parseValue_ws f ' ' _ (by decide),
          ihP v (serializeObjTail fs2 ++ rest) hwf.1.2 hfv (noLeadingDigit_objTail fs2 rest)]
        simp [ihR fs2 rest hwf.2 hffs]

theorem serializeInt_length_pos (n : Int) : 1 ≤ (serializeInt n).length := by
  obtain ⟨d, tl, -, htl⟩ := natToChars_head n.natAbs
  by_cases hn : n < 0 <;> simp [serializeInt, hn, htl]

theorem weight_le_bundle : ∀ n : Nat,
    (∀ j : Json, sizeOf j ≤ n → weight j ≤ 2 * (serialize j).length) ∧
    (∀ l : List Json, sizeOf l ≤ n →
      weightList l ≤ 2 * (serializeItems l).length + 1 ∧
      weightList l ≤ 2 * (serializeArrTail l).length) ∧
    (∀ fs : List (String × Json), sizeOf fs ≤ n →
      weightFields fs ≤ 2 * (serializeMembers fs).length + 1 ∧
      weightFields fs ≤ 2 * (serializeObjTail fs).length) := by
  intro n
  induction n using Nat.strong_induction_on with
  | _ n ih =>
    refine ⟨?_, ?_, ?_⟩
    · intro j hj
      cases j with
      | null => simp [weight, serialize]
      | bool b => cases b <;> simp [weight, serialize]
      | num n2 =>
        have := serializeInt_length_pos n2
        have hs : serialize (Json.num n2) = serializeInt n2 := rfl
        rw [hs]
        simp only [weight]
        omega
      | str s =>
        have hs : serialize (Json.str s) = serializeStr s := rfl
        rw [hs]
        simp only [weight, serializeStr, List.length_cons]
        omega
      | arr l =>
        have hsz : sizeOf l < n := by
          have h := Json.arr.sizeOf_spec l
          omega
        have hb := ((ih (sizeOf l) hsz).2.1 l (le_refl _)).1
        rw [serialize_arr]
        simp only [weight, List.length_cons]
        omega
      | obj l =>
        have hsz : sizeOf l < n := by
          have h := Json.obj.sizeOf_spec l
          omega
        have hb := ((ih (sizeOf l) hsz).2.2 l (le_refl _)).1
        rw [serialize_obj]
        simp only [weight, List.length_cons]
        omega
    · intro l hl
      cases l with
      | nil => constructor <;> simp [weightList, serializeItems, serializeArrTail]
      | cons j js =>
        have hszj : sizeOf j < n := by
          have h := List.cons.sizeOf_spec j js
          omega
        have hszjs : sizeOf js < n := by
          have h := List.cons.sizeOf_spec j js
          omega
        have hv := (ih (sizeOf j) hszj).1 j (le_refl _)
        have hc := ((ih (sizeOf js) hszjs).2.1 js (le_refl _)).2
        constructor
        · simp only [weightList, serializeItems, List.length_append]
          omega
        · simp only [weightList, serializeArrTail, List.length_cons,
            List.length_append]
          omega
    · intro fs hfs
      cases fs with
      | nil => constructor <;> simp [weightFields, serializeMembers, serializeObjTail]
      | cons p fs2 =>
        obtain ⟨k, v⟩ := p
        have hszv : sizeOf v < n := by
          have h1 := List.cons.sizeOf_spec (k, v) fs2
          have h2 := Prod.mk.sizeOf_spec k v
          omega
        have hszfs : sizeOf fs2 < n := by
          have h1 := List.cons.sizeOf_spec (k, v) fs2
          omega
        have hv := (ih (sizeOf v) hszv).1 v (le_refl _)
        have he := ((ih (sizeOf fs2) hszfs).2.2 fs2 (le_refl _)).2
        have hfield : (serializeField (k, v)).length =
            (serializeStr k).length + 2 + (serialize v).length := by
          simp [serializeField]
          omega
        have hstr : 2 ≤ (serializeStr k).length := by
          simp [serializeStr]
        constructor
        · simp only [weightFields, serializeMembers, List.length_append, hfield]
          omega
        · simp only [weightFields, serializeObjTail, List.length_cons,
            List.length_append, hfield]
          omega

/-- Round-trip at the heart of claim C6: re-parsing the serialized form of a
well-formed template gives back exactly the same value. -/
theorem loadsJson_dumpsJson (t : Json) (hw : wfJson t = true) :
    loadsJson (dumpsJson t) = some t := by
  have hfuel : weight t ≤ 2 * (String.mk (serialize t)).length + 2 := by
    have := (weight_le_bundle (sizeOf t)).1 t (le_refl _)
    have hlen : (String.mk (serialize t)).length = (serialize t).length := rfl
    omega
  have hparse := (parser_bundle (2 * (String.mk (serialize t)).length + 2)).1
    t [] hw hfuel trivial
  rw [List.append_nil] at hparse
  simp only [loadsJson, dumpsJson]
  rw [hparse]
  simp [skipWs]

/-- Python runtime errors that the script can raise. -/
inductive PyErr where
  | typeError : PyErr
  | valueError : PyErr
  | keyError : PyErr
  | attributeError : PyErr
  | fileNotFoundError : PyErr
  | jsonDecodeError : PyErr
deriving Repr, DecidableEq

/-- An HTTP response as the script observes it: status code, the optional
`ETag` response header, and the body (`resp.content` = `resp.text`). -/
structure HttpResponse where
  status : Nat
  etag : Option String
  body : String
deriving Repr, DecidableEq

/-- Observable side effects of one run, in order of occurrence.  A `putReq`
with `ifMatch = none` is a PUT whose `If-Match` header is absent (the
`requests` library drops headers whose value is `None`). -/
inductive Event where
  | getReq (url : String) (bearer : String) : Event
  | putReq (url : String) (ifMatch : Option String) (body : String) : Event
  | postReq (url : String) (body : String) : Event
  | fileWrite (name : String) (content : String) : Event
  | logPrint (msg : String) : Event
deriving Repr, DecidableEq

def isPutEvent : Event → Bool
  | .putReq _ _ _ => true
  | _ => false

def isFileWriteEvent : Event → Bool
  | .fileWrite _ _ => true
  | _ => false

def isGetEvent : Event → Bool
  | .getReq _ _ => true
  | _ => false

def putEvents (evs : List Event) : List Event := evs.filter isPutEvent

/-- The environment of one run: the `FIREBASE_PROJECT_ID` variable, the access
token the credential provider returns, `datetime.now()` formatted as in
`_save_remote_config`, the readable files, and the responses the backend gives
to the GET, PUT and rollback POST requests. -/
structure World where
  envProjectId : Option String
  accessToken : String
  timestamp : String
  fs : String → Option String
  getResp : HttpResponse
  putResp : HttpResponse
  rollbackResp : HttpResponse

/-- `PROJECT_ID = os.getenv('FIREBASE_PROJECT_ID', 'my-test-1181b')`
(src/main.py line 16). -/
def projectId (w : World) : String := w.envProjectId.getD "my-test-1181b"

def baseUrl : String := "https://firebaseremoteconfig.googleapis.com"

/-- `REMOTE_CONFIG_URL` as assembled in `__init__` (src/main.py lines 17-19). -/
def remoteConfigUrl (pid : String) : String :=
  baseUrl ++ "/" ++ ("v1/projects/" ++ pid ++ "/remoteConfig")

/-- Python `d[k]` on a JSON value: KeyError when the key is absent from a
dict, TypeError when the value is not a dict. -/
def getItem (j : Json) (k : String) : Except PyErr Json :=
  match j with
  | .obj fields =>
    match dictGet fields k with
    | some v => .ok v
    | none => .error .keyError
  | _ => .error .typeError

/-- Python `d[k] = v` on a JSON value: TypeError when the value is not a
dict. -/
def setItem (j : Json) (k : String) (v : Json) : Except PyErr Json :=
  match j with
  | .obj fields => .ok (.obj (dictSet fields k v))
  | _ => .error .typeError

/-- Python `data.get(k, dflt)`: AttributeError when `data` is not a dict. -/
def dictGetDefault (j : Json) (k : String) (dflt : Json) : Except PyErr Json :=
  match j with
  | .obj fields => .ok ((dictGet fields k).getD dflt)
  | _ => .error .attributeError

/-- Python `.items()`: AttributeError when the value is not a dict. -/
def itemsOf (j : Json) : Except PyErr (List (String × Json)) :=
  match j with
  | .obj fields => .ok fields
  | _ => .error .attributeError

/-- The `for group, group_data in ...items()` loop of `update_parameter_group`
(src/main.py lines 80-82): each iteration evaluates
`remote_config_current['parameterGroups']` and assigns into it. -/
def applyGroups (rc : Json) : List (String × Json) → Except PyErr Json
  | [] => .ok rc
  | (group, group_data) :: rest => do
    let pg ← getItem rc "parameterGroups"
    let pg2 ← setItem pg group group_data
    let rc2 ← setItem rc "parameterGroups" pg2
    applyGroups rc2 rest

/-- Embeds `ManagedRemoteConfigService.update_parameter_group`
(src/main.py lines 57-84).  `banner_option = none` models Python `None`;
the file system supplies the patch file's text, which `json.load` parses. -/
def update_parameter_group (fs : String → Option String) (remote_config_current : Json)
    (scenario : String) (banner_option : Option String) : Except PyErr Json := do
  match banner_option with
  | none => .error .valueError
  | some banner => do
    let config_file ←
      if banner = "disable" then pure (scenario ++ "_disabled.json")
      else if banner = "enable" then pure (scenario ++ "_enabled.json")
      else .error .valueError
    match fs config_file with
    | none => .error .fileNotFoundError
    | some text =>
      match loadsJson text with
      | none => .error .jsonDecodeError
      | some data => do
        let groups ← dictGetDefault data "parameterGroups" (.obj [])
        let items ← itemsOf groups
        applyGroups remote_config_current items

/-- Embeds `_save_remote_config` (src/main.py lines 86-102): writes the
serialized template to `config_<timestamp>.json` and returns that name. -/
def save_remote_config (timestamp : String) (response : String) :
    Event × String :=
  (.fileWrite ("config_" ++ timestamp ++ ".json") response,
    "config_" ++ timestamp ++ ".json")

/-- The three return shapes of `get_remote_config`: a pair, or Python `None`
(the implicit `return` of the non-200 branch, src/main.py lines 126-129). -/
inductive RCResult where
  | pair (etag : Option String) (file : Option String) : RCResult
  | retNone : RCResult
deriving Repr, DecidableEq

/-- Tuple unpacking `etag, config_file = ...` (src/main.py line 179):
unpacking Python `None` raises TypeError. -/
def unpack2 : RCResult → Except PyErr (Option String × Option String)
  | .pair a b => .ok (a, b)
  | .retNone => .error .typeError

/-- Embeds `ManagedRemoteConfigService.get_remote_config`
(src/main.py lines 104-129): issues the GET, parses the body with
`json.loads`, reads the `ETag` header (returning `(None, None)` when absent),
and on status 200 saves the re-serialized template to a snapshot file. -/
def get_remote_config (w : World) : List Event × Except PyErr RCResult :=
  let ev0 : Event := .getReq (remoteConfigUrl (projectId w)) w.accessToken
  match loadsJson w.getResp.body with
  | none => ([ev0], .error .jsonDecodeError)
  | some new_resp =>
    match w.getResp.etag with
    | none => ([ev0], .ok (.pair none none))
    | some etag =>
      let file_response := dumpsJson new_resp
      if w.getResp.status = 200 then
        let saved := save_remote_config w.timestamp file_response
        ([ev0, saved.1], .ok (.pair (some etag) (some saved.2)))
      else ([ev0], .ok .retNone)

/-- Python `x is None`: true exactly for the `None` object, which
`json.load` produces for a document reading `null`. -/
def isNullJson : Json → Bool
  | .null => true
  | _ => false

/-- Embeds `ManagedRemoteConfigService.update_remote_config`
(src/main.py lines 131-166): builds headers with `If-Match: etag`, opens and
parses the snapshot file, patches it with `update_parameter_group`, runs the
`if data is None` guard of lines 150-154 — live, because
`update_parameter_group` returns its argument, which is Python `None` when
the snapshot parsed to JSON null and the patch file named no groups — then
PUTs the serialized result and only logs the outcome.  A 200 response
without an `ETag` header raises KeyError at the success log (line 162); any
other status is logged and swallowed. -/
def update_remote_config (pid : String) (fs : String → Option String)
    (putResp : HttpResponse) (remote_config_file : Option String)
    (etag : Option String) (scenario : String) (banner_option : Option String) :
    List Event × Except PyErr Unit :=
  match remote_config_file with
  | none => ([], .error .typeError)
  | some fname =>
    match fs fname with
    | none => ([], .error .fileNotFoundError)
    | some text =>
      match loadsJson text with
      | none => ([], .error .jsonDecodeError)
      | some parsed =>
        match update_parameter_group fs parsed scenario banner_option with
        | .error e => ([], .error e)
        | .ok data =>
          if isNullJson data then ([], .error .valueError)
          else
            let ev : Event := .putReq (remoteConfigUrl pid) etag (dumpsJson data)
            if putResp.status = 200 then
              match putResp.etag with
              | some _ => ([ev], .ok ())
              | none => ([ev], .error .keyError)
            else ([ev], .ok ())

/-- Embeds `ManagedRemoteConfigService._rollback` (src/main.py lines 22-44):
POSTs `{"versionNumber": version}` to the `:rollback` endpoint; on status 200
prints two success lines and then reads `resp.headers['ETag']` (KeyError when
that header is absent); otherwise prints a failure message. -/
def rollback_op (w : World) (version : String) : List Event × Except PyErr Unit :=
  let url := remoteConfigUrl (projectId w) ++ ":rollback"
  let body := dumpsJson (.obj [("versionNumber", .str version)])
  let ev : Event := .postReq url body
  let resp := w.rollbackResp
  if resp.status = 200 then
    let p1 : Event := .logPrint ("Rolled back to version: " ++ version)
    let p2 : Event := .logPrint resp.body
    match resp.etag with
    | some e => ([ev, p1, p2, .logPrint ("ETag from server: " ++ e)], .ok ())
    | none => ([ev, p1, p2], .error .keyError)
  else
    ([ev, .logPrint ("Request to roll back to version " ++ version ++ " failed."),
      .logPrint resp.body], .ok ())

/-- File writes recorded so far become visible to later reads. -/
def applyWrites (fs : String → Option String) : List Event → (String → Option String)
  | [] => fs
  | .fileWrite n c :: rest =>
    applyWrites (fun m => if m = n then some c else fs m) rest
  | _ :: rest => applyWrites fs rest

/-- Embeds the `__main__` sync cycle (src/main.py lines 178-184, the
`rollback = False` branch): fetch, unpack the result pair, then call
`update_remote_config` with `scenario1` / `disable` exactly as written. -/
def mainCycle (w : World) : List Event × Except PyErr Unit :=
  let fetched := get_remote_config w
  match fetched.2 with
  | .error e => (fetched.1, .error e)
  | .ok r =>
    match unpack2 r with
    | .error e => (fetched.1, .error e)
    | .ok (etag, config_file) =>
      let fs2 := applyWrites w.fs fetched.1
      let upd := update_remote_config (projectId w) fs2 w.putResp config_file etag
        "scenario1" "disable"
      (fetched.1 ++ upd.1, upd.2)

/-- Pure effect of the patch loop on a template whose `parameterGroups` entry
is a dict: each named group is assigned in order. -/
def setGroups (gs items : List (String × Json)) : List (String × Json) :=
  items.foldl (fun acc p => dictSet acc p.1 p.2) gs

theorem applyGroups_ok (items : List (String × Json)) :
    ∀ fields gs, dictGet fields "parameterGroups" = some (.obj gs) →
    applyGroups (.obj fields) items =
      .ok (.obj (dictSet fields "parameterGroups" (.obj (setGroups gs items)))) := by
  induction items with
  | nil =>
    intro fields gs hg
    simp [applyGroups, setGroups, dictSet_eq_of_get fields _ _ hg]
  | cons p rest ih =>
    intro fields gs hg
    obtain ⟨g, gd⟩ := p
    have hstep : setGroups gs ((g, gd) :: rest) = setGroups (dictSet gs g gd) rest := rfl
    simp only [applyGroups, getItem, hg, setItem, Bind.bind, Except.bind]
    rw [ih (dictSet fields "parameterGroups" (.obj (dictSet gs g gd))) (dictSet gs g gd)
      (dictGet_dictSet_self fields "parameterGroups" (.obj (dictSet gs g gd))),
      dictSet_dictSet_self, hstep]

theorem setGroups_not_named (items : List (String × Json)) : ∀ gs g,
    (∀ p ∈ items, p.1 ≠ g) → dictGet (setGroups gs items) g = dictGet gs g := by
  induction items with
  | nil => intro gs g _; rfl
  | cons p rest ih =>
    intro gs g h
    have hstep : setGroups gs (p :: rest) = setGroups (dictSet gs p.1 p.2) rest := rfl
    rw [hstep, ih (dictSet gs p.1 p.2) g (fun q hq => h q (List.mem_cons_of_mem _ hq))]
    exact dictGet_dictSet_ne gs p.1 g p.2 (Ne.symm (h p (List.mem_cons_self _ _)))

/-- Heap of Python object identities, for stating in-place mutation. -/
def heapGet (h : List (Nat × Json)) (r : Nat) : Option Json :=
  match h with
  | [] => none
  | (r1, v) :: rest => if r1 = r then some v else heapGet rest r

def heapSet (h : List (Nat × Json)) (r : Nat) (v : Json) : List (Nat × Json) :=
  match h with
  | [] => [(r, v)]
  | (r1, v1) :: rest =>
    if r1 = r then (r1, v) :: rest else (r1, v1) :: heapSet rest r v

theorem heapGet_heapSet_self (h : List (Nat × Json)) (r : Nat) (v : Json) :
    heapGet (heapSet h r v) r = some v := by
  induction h with
  | nil => simp [heapGet, heapSet]
  | cons p rest ih =>
    obtain ⟨r1, v1⟩ := p
    by_cases hr : r1 = r
    · simp [heapGet, heapSet, hr]
    · simp [heapGet, heapSet, hr, ih]

theorem heapSet_heapSet_self (h : List (Nat × Json)) (r : Nat) (v w : Json) :
    heapSet (heapSet h r v) r w = heapSet h r w := by
  induction h with
  | nil => simp [heapSet]
  | cons p rest ih =>
    obtain ⟨r1, v1⟩ := p
    by_cases hr : r1 = r
    · simp [heapSet, hr]
    · simp [heapSet, hr, ih]

/-- The loop of `update_parameter_group` with the template dict passed by
reference `r` into the heap: every assignment of the loop body updates the
heap cell in place, as `remote_config_current['parameterGroups'][group] = ...`
does in Python. -/
def applyGroupsRef (h : List (Nat × Json)) (r : Nat) :
    List (String × Json) → Except PyErr (List (Nat × Json))
  | [] => .ok h
  | (group, group_data) :: rest => do
    let rc ← match heapGet h r with
      | some j => Except.ok j
      | none => Except.error PyErr.keyError
    let pg ← getItem rc "parameterGroups"
    let pg2 ← setItem pg group group_data
    let rc2 ← setItem rc "parameterGroups" pg2
    applyGroupsRef (heapSet h r rc2) r rest

/-- State-passing embedding of `update_parameter_group` (src/main.py
lines 57-84) in which `remote_config_current` is a reference into a heap, so
object identity and in-place mutation are observable.  The final
`return remote_config_current` (line 84) returns the same reference `r`. -/
def update_parameter_group_ref (fs : String → Option String)
    (heap : List (Nat × Json)) (r : Nat) (scenario : String)
    (banner_option : Option String) : Except PyErr (Nat × List (Nat × Json)) := do
  match banner_option with
  | none => .error .valueError
  | some banner => do
    let config_file ←
      if banner = "disable" then pure (scenario ++ "_disabled.json")
      else if banner = "enable" then pure (scenario ++ "_enabled.json")
      else .error .valueError
    match fs config_file with
    | none => .error .fileNotFoundError
    | some text =>
      match loadsJson text with
      | none => .error .jsonDecodeError
      | some data => do
        let groups ← dictGetDefault data "parameterGroups" (.obj [])
        let items ← itemsOf groups
        let heap2 ← applyGroupsRef heap r items
        .ok (r, heap2)

theorem heapSet_eq_of_get (h : List (Nat × Json)) (r : Nat) (v : Json)
    (hh : heapGet h r = some v) : heapSet h r v = h := by
  induction h with
  | nil => simp [heapGet] at hh
  | cons p rest ih =>
    obtain ⟨r1, v1⟩ := p
    by_cases hr : r1 = r
    · subst hr
      simp [heapGet] at hh
      simp [heapSet, hh]
    · simp only [heapGet, hr, if_false, ite_false] at hh
      simp [heapSet, hr, ih hh]

theorem applyGroupsRef_ok (items : List (String × Json)) :
    ∀ (h : List (Nat × Json)) (r : Nat) (fields gs : List (String × Json)),
    heapGet h r = some (.obj fields) →
    dictGet fields "parameterGroups" = some (.obj gs) →
    applyGroupsRef h r items =
      .ok (heapSet h r (.obj (dictSet fields "parameterGroups"
        (.obj (setGroups gs items))))) := by
  induction items with
  | nil =>
    intro h r fields gs hh hg
    simp only [applyGroupsRef, setGroups, List.foldl]
    rw [dictSet_eq_of_get fields _ _ hg, heapSet_eq_of_get h r _ hh]
  | cons p rest ih =>
    intro h r fields gs hh hg
    obtain ⟨g, gd⟩ := p
    have hstep : setGroups gs ((g, gd) :: rest) = setGroups (dictSet gs g gd) rest := rfl
    simp only [applyGroupsRef, hh, getItem, hg, setItem, Bind.bind, Except.bind]
    rw [ih (heapSet h r (.obj (dictSet fields "parameterGroups" (.obj (dictSet gs g gd)))))
      r (dictSet fields "parameterGroups" (.obj (dictSet gs g gd))) (dictSet gs g gd)
      (heapGet_heapSet_self _ _ _)
      (dictGet_dictSet_self fields "parameterGroups" (.obj (dictSet gs g gd))),
      heapSet_heapSet_self, dictSet_dictSet_self, hstep]

/-! ## Concrete fixtures for witnesses and counterexamples -/

def tmplGroups : List (String × Json) := [("g1", .obj [("x", .num 1)])]

def tmplFields : List (String × Json) :=
  [("parameterGroups", .obj tmplGroups), ("other", .num 2)]

/-- A small remote-config template with one parameter group and one other
top-level key. -/
def tmplJson : Json := .obj tmplFields

def patchItems : List (String × Json) := [("g1", .obj [("x", .num 9)]), ("g2", .null)]

/-- A patch file replacing group `g1` and adding group `g2`. -/
def patchJson : Json := .obj [("parameterGroups", .obj patchItems)]

/-- The patched template: `g1` replaced, `g2` appended, `other` untouched. -/
def patchedJson : Json :=
  .obj (dictSet tmplFields "parameterGroups" (.obj (setGroups tmplGroups patchItems)))

def testFs : String → Option String :=
  fun name =>
    if name = "scenario1_disabled.json" then some (dumpsJson patchJson) else none

def baseWorld : World :=
  { envProjectId := none, accessToken := "tok", timestamp := "202501010000",
    fs := testFs, getResp := ⟨200, some "etag-1", dumpsJson tmplJson⟩,
    putResp := ⟨200, some "etag-2", "okbody"⟩,
    rollbackResp := ⟨200, some "etag-3", "rbody"⟩ }

/-- GET response carries no ETag header. -/
def wNoEtag : World := { baseWorld with getResp := ⟨200, none, dumpsJson tmplJson⟩ }

/-- GET response carries an empty-string ETag. -/
def wEmptyEtag : World := { baseWorld with getResp := ⟨200, some "", dumpsJson tmplJson⟩ }

/-- PUT is answered with a 412 precondition-failed conflict. -/
def wConflict : World := { baseWorld with putResp := ⟨412, none, "conflict"⟩ }

/-- PUT is answered with an unrelated 500 failure. -/
def wWriteFail : World := { baseWorld with putResp := ⟨500, none, "boom"⟩ }

/-- GET fails with a 500 status (ETag present). -/
def wFetchFail : World := { baseWorld with getResp := ⟨500, some "etag-1", dumpsJson tmplJson⟩ }

/-- Rollback POST answered 200 but without an ETag header. -/
def wRollbackNoEtag : World := { baseWorld with rollbackResp := ⟨200, none, "rbody"⟩ }

/-- Rollback POST answered with a failure status. -/
def wRollbackFail : World := { baseWorld with rollbackResp := ⟨404, some "x", "nope"⟩ }

/-! ## Trace-shape helpers -/

theorem get_remote_config_trace (w : World) :
    putEvents (get_remote_config w).1 = [] ∧
    ((get_remote_config w).1.filter isGetEvent).length = 1 := by
  unfold get_remote_config
  cases hl : loadsJson w.getResp.body with
  | none => simp [putEvents, isPutEvent, isGetEvent]
  | some t =>
    cases he : w.getResp.etag with
    | none => simp [putEvents, isPutEvent, isGetEvent]
    | some e =>
      by_cases hs : w.getResp.status = 200 <;>
        simp [hs, save_remote_config, putEvents, isPutEvent, isGetEvent]

theorem update_remote_config_trace (pid : String) (fs : String → Option String)
    (resp : HttpResponse) (file : Option String) (etag : Option String)
    (scenario : String) (bopt : Option String) :
    (putEvents (update_remote_config pid fs resp file etag scenario bopt).1).length ≤ 1 ∧
    (update_remote_config pid fs resp file etag scenario bopt).1.filter isGetEvent = [] := by
  unfold update_remote_config
  cases file with
  | none => simp [putEvents]
  | some fname =>
    cases hfs : fs fname with
    | none => simp [hfs, putEvents]
    | some text =>
      cases hl : loadsJson text with
      | none => simp [hfs, hl, putEvents]
      | some parsed =>
        cases hupg : update_parameter_group fs parsed scenario bopt with
        | error e => simp [hfs, hl, hupg, putEvents]
        | ok data =>
          by_cases hnd : isNullJson data
          · simp [hfs, hl, hupg, hnd, putEvents]
          · by_cases hs : resp.status = 200
            · cases hetag : resp.etag <;>
                simp [hfs, hl, hupg, hnd, hs, hetag, putEvents, isPutEvent, isGetEvent]
            · simp [hfs, hl, hupg, hnd, hs, putEvents, isPutEvent, isGetEvent]

theorem mainCycle_trace (w : World) :
    (putEvents (mainCycle w).1).length ≤ 1 ∧
    ((mainCycle w).1.filter isGetEvent).length ≤ 1 := by
  obtain ⟨hg1, hg2⟩ := get_remote_config_trace w
  rcases hget : get_remote_config w with ⟨evs, r⟩
  rw [hget] at hg1 hg2
  have hg1len : (List.filter isPutEvent evs).length = 0 := by
    simp only [putEvents] at hg1
    rw [hg1]
    rfl
  cases r with
  | error e =>
    have hm : mainCycle w = (evs, .error e) := by
      simp [mainCycle, hget]
    rw [hm]
    simp only [putEvents, List.length_nil] at *
    constructor <;> omega
  | ok rr =>
    cases hu : unpack2 rr with
    | error e =>
      have hm : mainCycle w = (evs, .error e) := by
        simp [mainCycle, hget, hu]
      rw [hm]
      simp only [putEvents, List.length_nil] at *
      constructor <;> omega
    | ok pr =>
      obtain ⟨etag, config_file⟩ := pr
      obtain ⟨hu1, hu2⟩ := update_remote_config_trace (projectId w)
        (applyWrites w.fs evs) w.putResp config_file etag "scenario1" (some "disable")
      have hm : mainCycle w =
          (evs ++ (update_remote_config (projectId w) (applyWrites w.fs evs) w.putResp
            config_file etag "scenario1" (some "disable")).1,
           (update_remote_config (projectId w) (applyWrites w.fs evs) w.putResp
            config_file etag "scenario1" (some "disable")).2) := by
        simp [mainCycle, hget, hu]
      rw [hm]
      have hu2len : (List.filter isGetEvent
          (update_remote_config (projectId w) (applyWrites w.fs evs) w.putResp
            config_file etag "scenario1" (some "disable")).1).length = 0 := by
        rw [hu2]
        rfl
      simp only [putEvents, List.filter_append, List.length_append] at *
      constructor <;> omega

/-- The `if data is None` guard of src/main.py lines 150-154 is live: a
snapshot file whose document is `null` together with a patch file that names
no parameter groups makes `update_parameter_group` return Python `None`
unchanged, and `update_remote_config` then raises ValueError with no PUT
issued, regardless of the backend status. -/
theorem update_remote_config_none_guard :
    update_remote_config "my-test-1181b"
      (fun name =>
        if name = "cfg.json" then some "null"
        else if name = "scenario1_disabled.json" then some (dumpsJson (.obj []))
        else none)
      ⟨412, none, "conflict"⟩ (some "cfg.json") (some "etag-1") "scenario1"
      (some "disable") = ([], .error .valueError) := rfl

/-! ## Claims -/

/-- C1 counterexample: with a backend response that carries no ETag, the
claim "the sync cycle fails with a FetchError" is false of the code: the
fetch step itself does not fail at all — `get_remote_config` returns the
`(None, None)` pair normally — and the cycle only crashes later, with a
TypeError raised in the write step when it opens the `None` snapshot name. -/
theorem C1_counterexample :
    (get_remote_config wNoEtag).2 = .ok (.pair none none) ∧
    mainCycle wNoEtag =
      ([.getReq (remoteConfigUrl "my-test-1181b") "tok"], .error .typeError) :=
  ⟨rfl, rfl⟩

/-- C1 (amended): for every fetch whose backend response carries no version
token (no ETag header), the sync cycle still fails — `get_remote_config`
merely logs and returns `(None, None)`, and the failure is the TypeError
raised in the write step on the `None` filename (or a JSONDecodeError if the
body did not parse) — and no write (no PUT) is ever performed in that
cycle. -/
theorem C1_no_etag_cycle_fails_without_put (w : World)
    (hetag : w.getResp.etag = none) :
    (∃ e, (mainCycle w).2 = .error e) ∧ putEvents (mainCycle w).1 = [] := by
  cases hl : loadsJson w.getResp.body with
  | none =>
    have hm : mainCycle w =
        ([.getReq (remoteConfigUrl (projectId w)) w.accessToken],
         .error .jsonDecodeError) := by
      simp [mainCycle, get_remote_config, hl]
    rw [hm]
    exact ⟨⟨.jsonDecodeError, rfl⟩, rfl⟩
  | some t =>
    have hm : mainCycle w =
        ([.getReq (remoteConfigUrl (projectId w)) w.accessToken],
         .error .typeError) := by
      simp [mainCycle, get_remote_config, hl, hetag, unpack2, update_remote_config]
    rw [hm]
    exact ⟨⟨.typeError, rfl⟩, rfl⟩

/-- Witness for C1: the no-ETag world satisfies the hypothesis, and the
cycle there indeed performs no PUT. -/
theorem C1_no_etag_cycle_fails_without_put_witness :
    wNoEtag.getResp.etag = none ∧ putEvents (mainCycle wNoEtag).1 = [] :=
  ⟨rfl, (C1_no_etag_cycle_fails_without_put wNoEtag rfl).2⟩

/-- C2 (code bug): the write is invoked without a real version token even
though no force mode exists.  After a no-ETag fetch, the `__main__` flow
still calls `update_remote_config` with `etag=None` — it only aborts because
opening the `None` filename raises a TypeError before the PUT — and when the
fetch returns the empty-string ETag, the cycle issues the PUT with
`If-Match: ""` carrying the fetched token verbatim. -/
theorem C2_code_bug :
    (get_remote_config wNoEtag).2 = .ok (.pair none none) ∧
    update_remote_config (projectId wNoEtag) wNoEtag.fs wNoEtag.putResp none none
      "scenario1" (some "disable") = ([], .error .typeError) ∧
    putEvents (mainCycle wEmptyEtag).1 =
      [.putReq (remoteConfigUrl "my-test-1181b") (some "") (dumpsJson patchedJson)] :=
  ⟨rfl, rfl, rfl⟩

/-- C3 counterexample: on a 412 conflict response the write does not fail at
all, let alone with a distinct ConflictError: `update_remote_config` logs and
returns normally, the exact same outcome as for an unrelated 500 write
failure; only the single original PUT is ever issued. -/
theorem C3_counterexample :
    (mainCycle wConflict).2 = .ok () ∧ (mainCycle wWriteFail).2 = .ok () ∧
    putEvents (mainCycle wConflict).1 =
      [.putReq (remoteConfigUrl "my-test-1181b") (some "etag-1") (dumpsJson patchedJson)] :=
  ⟨rfl, rfl, rfl⟩

/-- C3 (amended): for every write attempt answered with a 412 conflict
status — the patch step having produced a template that is not Python `None`,
so the guard of lines 150-154 passes and the PUT is reached —
`update_remote_config` logs the failure and returns normally: it raises
nothing and does not distinguish the conflict from a generic write failure,
performs no automatic retry and never force-overwrites: exactly one PUT is
issued and its `If-Match` is the caller's token. -/
theorem C3_conflict_swallowed_no_retry (pid : String) (fs : String → Option String)
    (resp : HttpResponse) (fname text : String) (etag : Option String)
    (scenario : String) (bopt : Option String) (t d : Json)
    (hfile : fs fname = some text) (hparse : loadsJson text = some t)
    (hpatch : update_parameter_group fs t scenario bopt = .ok d)
    (hnotnull : isNullJson d = false)
    (hstatus : resp.status = 412) :
    update_remote_config pid fs resp (some fname) etag scenario bopt =
      ([.putReq (remoteConfigUrl pid) etag (dumpsJson d)], .ok ()) := by
  simp [update_remote_config, hfile, hparse, hpatch, hnotnull, hstatus]

/-- Witness for C3 (amended), at the concrete conflict world. -/
theorem C3_conflict_swallowed_no_retry_witness :
    update_remote_config "my-test-1181b" (applyWrites wConflict.fs (get_remote_config wConflict).1)
      wConflict.putResp (some "config_202501010000.json") (some "etag-1") "scenario1"
      (some "disable") =
      ([.putReq (remoteConfigUrl "my-test-1181b") (some "etag-1") (dumpsJson patchedJson)],
       .ok ()) :=
  C3_conflict_swallowed_no_retry "my-test-1181b"
    (applyWrites wConflict.fs (get_remote_config wConflict).1) wConflict.putResp
    "config_202501010000.json" (dumpsJson tmplJson) (some "etag-1") "scenario1"
    (some "disable") tmplJson patchedJson rfl (by rfl) (by rfl) (by rfl) rfl

/-- C4: for every valid (template, patch) pair — a template dict whose
`parameterGroups` entry is a dict of groups, and a patch file that parses as
JSON (its `parameterGroups` mapping defaulting to empty) —
`update_parameter_group` changes only the parameter groups named in the
patch: the result is the input template with only `parameterGroups` rebound,
every other top-level key reads unchanged, and every group not named in the
patch reads unchanged. -/
theorem C4_patch_frame (fs : String → Option String)
    (fields gs dfields items : List (String × Json)) (scenario cfg text : String)
    (bopt : Option String)
    (hopt : (bopt = some "disable" ∧ cfg = scenario ++ "_disabled.json") ∨
            (bopt = some "enable" ∧ cfg = scenario ++ "_enabled.json"))
    (hfile : fs cfg = some text)
    (hparse : loadsJson text = some (.obj dfields))
    (hpg : dictGet fields "parameterGroups" = some (.obj gs))
    (hitems : (dictGet dfields "parameterGroups").getD (.obj []) = .obj items) :
    update_parameter_group fs (.obj fields) scenario bopt =
      .ok (.obj (dictSet fields "parameterGroups" (.obj (setGroups gs items)))) ∧
    (∀ k, k ≠ "parameterGroups" →
      dictGet (dictSet fields "parameterGroups" (.obj (setGroups gs items))) k =
        dictGet fields k) ∧
    (∀ g, (∀ p ∈ items, p.1 ≠ g) →
      dictGet (setGroups gs items) g = dictGet gs g) := by
  refine ⟨?_, ?_, ?_⟩
  · rcases hopt with ⟨rfl, rfl⟩ | ⟨rfl, rfl⟩ <;>
      simp [update_parameter_group, hfile, hparse, dictGetDefault, hitems, itemsOf,
        Bind.bind, Except.bind, Pure.pure, Except.pure,
        applyGroups_ok items fields gs hpg]
  · intro k hk
    exact dictGet_dictSet_ne fields "parameterGroups" k _ hk
  · intro g hg
    exact setGroups_not_named items gs g hg

/-- Witness for C4 at the concrete template and patch fixtures. -/
theorem C4_patch_frame_witness :
    update_parameter_group testFs (.obj tmplFields) "scenario1" (some "disable") =
      .ok (.obj (dictSet tmplFields "parameterGroups"
        (.obj (setGroups tmplGroups patchItems)))) :=
  (C4_patch_frame testFs tmplFields tmplGroups [("parameterGroups", .obj patchItems)]
    patchItems "scenario1" ("scenario1" ++ "_disabled.json") (dumpsJson patchJson)
    (some "disable") (Or.inl ⟨rfl, rfl⟩) (by rfl) (by rfl) (by rfl) (by rfl)).1

/-- C5: for every invocation of the patch step with a banner option that is
unset (`None`) or neither `enable` nor `disable`, the ValueError from
`update_parameter_group` is raised before any network write: the result of
`update_remote_config` is that error with an empty event trace, so no PUT is
issued and the remote template is not overwritten. -/
theorem C5_invalid_banner_fails_before_put (pid : String)
    (fs : String → Option String) (resp : HttpResponse) (fname text : String)
    (t : Json) (etag : Option String) (scenario : String) (bopt : Option String)
    (hfile : fs fname = some text) (hparse : loadsJson text = some t)
    (hbad : bopt = none ∨ ∃ s, bopt = some s ∧ s ≠ "enable" ∧ s ≠ "disable") :
    update_remote_config pid fs resp (some fname) etag scenario bopt =
      ([], .error .valueError) := by
  rcases hbad with rfl | ⟨s, rfl, he, hd⟩
  · simp [update_remote_config, hfile, hparse, update_parameter_group]
  · simp [update_remote_config, hfile, hparse, update_parameter_group, he, hd,
      Bind.bind, Except.bind, Pure.pure, Except.pure]

/-- Witness for C5 with the banner option `neither-enable-nor-disable`. -/
theorem C5_invalid_banner_fails_before_put_witness :
    update_remote_config "my-test-1181b" testFs baseWorld.putResp
      (some "scenario1_disabled.json") (some "etag-1") "scenario1"
      (some "neither-enable-nor-disable") = ([], .error .valueError) :=
  C5_invalid_banner_fails_before_put "my-test-1181b" testFs baseWorld.putResp
    "scenario1_disabled.json" (dumpsJson patchJson) patchJson (some "etag-1")
    "scenario1" (some "neither-enable-nor-disable") (by rfl) (by rfl)
    (Or.inr ⟨"neither-enable-nor-disable", rfl, by decide, by decide⟩)

/-- C6: the fetch path round-trips the template.  When the response body
deserializes to a well-formed template `t`, `get_remote_config` writes
exactly the re-serialization of `t` to the snapshot file, and deserializing
that serialization yields `t` again — key set and all values preserved (the
parser accepts any key order, so this is semantic equality of templates). -/
theorem C6_serialize_deserialize_roundtrip (w : World) (t : Json) (e : String)
    (hw : wfJson t = true) (hbody : loadsJson w.getResp.body = some t)
    (hetag : w.getResp.etag = some e) (hstatus : w.getResp.status = 200) :
    get_remote_config w =
      ([.getReq (remoteConfigUrl (projectId w)) w.accessToken,
        .fileWrite ("config_" ++ w.timestamp ++ ".json") (dumpsJson t)],
       .ok (.pair (some e) (some ("config_" ++ w.timestamp ++ ".json")))) ∧
    loadsJson (dumpsJson t) = some t := by
  constructor
  · simp [get_remote_config, hbody, hetag, hstatus, save_remote_config]
  · exact loadsJson_dumpsJson t hw

/-- Witness for C6 at the concrete template fixture. -/
theorem C6_serialize_deserialize_roundtrip_witness :
    loadsJson (dumpsJson tmplJson) = some tmplJson :=
  (C6_serialize_deserialize_roundtrip baseWorld tmplJson "etag-1" (by rfl) (by rfl)
    rfl rfl).2

/-- C7 counterexample: at a 200 rollback response without an ETag header the
claim "reports success exactly when the backend responds with status 200 and
failure otherwise" fails on the code: `_rollback` prints the first success
lines and then raises KeyError at the `resp.headers` ETag lookup instead of
completing. -/
theorem C7_counterexample :
    rollback_op wRollbackNoEtag "21" =
      ([.postReq (remoteConfigUrl "my-test-1181b" ++ ":rollback")
          (dumpsJson (.obj [("versionNumber", .str "21")])),
        .logPrint "Rolled back to version: 21", .logPrint "rbody"],
       .error .keyError) := rfl

/-- C7 (amended): for every version string `v`, `_rollback` posts the
serialized object with the single member `versionNumber = v` to the
`:rollback` endpoint and never writes, deletes, or modifies any local file;
on a non-200 status it prints the failure message and returns normally; on a
200 response carrying an ETag it prints the success messages and returns
normally; on a 200 response without an ETag header it raises KeyError after
the first success prints. -/
theorem C7_rollback_behavior (w : World) (v : String) :
    (rollback_op w v).1.head? =
      some (.postReq (remoteConfigUrl (projectId w) ++ ":rollback")
        (dumpsJson (.obj [("versionNumber", .str v)]))) ∧
    (rollback_op w v).1.filter isFileWriteEvent = [] ∧
    (w.rollbackResp.status ≠ 200 →
      (rollback_op w v).2 = .ok () ∧
      Event.logPrint ("Request to roll back to version " ++ v ++ " failed.")
        ∈ (rollback_op w v).1) ∧
    (∀ e, w.rollbackResp.status = 200 → w.rollbackResp.etag = some e →
      (rollback_op w v).2 = .ok () ∧
      Event.logPrint ("Rolled back to version: " ++ v) ∈ (rollback_op w v).1) ∧
    (w.rollbackResp.status = 200 → w.rollbackResp.etag = none →
      (rollback_op w v).2 = .error .keyError ∧
      Event.logPrint ("Rolled back to version: " ++ v) ∈ (rollback_op w v).1) := by
  by_cases hs : w.rollbackResp.status = 200
  · cases he : w.rollbackResp.etag with
    | none => simp [rollback_op, hs, he, isFileWriteEvent]
    | some e2 => simp [rollback_op, hs, he, isFileWriteEvent]
  · simp [rollback_op, hs, isFileWriteEvent]

/-- Witness for C7 (amended): the 200-without-ETag case raises KeyError. -/
theorem C7_rollback_behavior_witness :
    (rollback_op wRollbackNoEtag "21").2 = .error .keyError ∧
    Event.logPrint ("Rolled back to version: " ++ "21")
      ∈ (rollback_op wRollbackNoEtag "21").1 :=
  (C7_rollback_behavior wRollbackNoEtag "21").2.2.2.2 rfl rfl

/-- C8 counterexample: a write failure is silently swallowed.  With the PUT
answered 500 the cycle returns `ok ()`, exactly as in the fully successful
run, so the caller of the cycle cannot distinguish the failed write. -/
theorem C8_counterexample :
    (mainCycle wWriteFail).2 = .ok () ∧ wWriteFail.putResp.status = 500 ∧
    (mainCycle baseWorld).2 = .ok () :=
  ⟨rfl, rfl, rfl⟩

/-- C8 (amended): the cycle performs no internal retries — at most one GET
and one PUT per run.  A fetch failure with non-200 status does surface (the
caller's tuple unpacking of the returned `None` raises TypeError, and no PUT
happens), but a write failure with non-200 status is only logged:
`update_remote_config` returns normally, indistinguishable from success, so
write errors are not surfaced to the caller of the cycle (the fourth part
assumes the patch step produced a template that is not Python `None`, so the
guard of lines 150-154 passes and the PUT is reached). -/
theorem C8_error_propagation (w : World) :
    (putEvents (mainCycle w).1).length ≤ 1 ∧
    ((mainCycle w).1.filter isGetEvent).length ≤ 1 ∧
    (∀ e t, loadsJson w.getResp.body = some t → w.getResp.etag = some e →
      w.getResp.status ≠ 200 →
      (mainCycle w).2 = .error .typeError ∧ putEvents (mainCycle w).1 = []) ∧
    (∀ pid fs resp fname text etag scenario bopt t d,
      fs fname = some text → loadsJson text = some t →
      update_parameter_group fs t scenario bopt = Except.ok d →
      isNullJson d = false →
      resp.status ≠ 200 →
      update_remote_config pid fs resp (some fname) etag scenario bopt =
        ([Event.putReq (remoteConfigUrl pid) etag (dumpsJson d)], .ok ())) := by
  refine ⟨(mainCycle_trace w).1, (mainCycle_trace w).2, ?_, ?_⟩
  · intro e t hl he hs
    have hm : mainCycle w =
        ([.getReq (remoteConfigUrl (projectId w)) w.accessToken],
         .error .typeError) := by
      simp [mainCycle, get_remote_config, hl, he, hs, unpack2]
    rw [hm]
    exact ⟨rfl, rfl⟩
  · intro pid fs resp fname text etag scenario bopt t d hfs hl hupg hnd hs
    simp [update_remote_config, hfs, hl, hupg, hnd, hs]

/-- Witness for C8 (amended): a 500 fetch surfaces as a TypeError with no
PUT issued. -/
theorem C8_error_propagation_witness :
    (mainCycle wFetchFail).2 = .error .typeError ∧
    putEvents (mainCycle wFetchFail).1 = [] :=
  (C8_error_propagation wFetchFail).2.2.1 "etag-1" tmplJson (by rfl) rfl (by decide)

/-- C9: `update_parameter_group` mutates its input template in place and
returns that same object.  In the reference-passing embedding of the same
source lines, a successful run returns exactly the reference it was given,
and the heap cell behind that reference afterwards holds the patched
template — the very value the pure embedding returns — so the caller's
template is modified as a side effect. -/
theorem C9_in_place_mutation (fs : String → Option String)
    (heap : List (Nat × Json)) (r : Nat)
    (fields gs dfields items : List (String × Json)) (scenario cfg text : String)
    (bopt : Option String)
    (hopt : (bopt = some "disable" ∧ cfg = scenario ++ "_disabled.json") ∨
            (bopt = some "enable" ∧ cfg = scenario ++ "_enabled.json"))
    (hheap : heapGet heap r = some (.obj fields))
    (hfile : fs cfg = some text)
    (hparse : loadsJson text = some (.obj dfields))
    (hpg : dictGet fields "parameterGroups" = some (.obj gs))
    (hitems : (dictGet dfields "parameterGroups").getD (.obj []) = .obj items) :
    update_parameter_group_ref fs heap r scenario bopt =
      .ok (r, heapSet heap r (.obj (dictSet fields "parameterGroups"
        (.obj (setGroups gs items))))) ∧
    heapGet (heapSet heap r (.obj (dictSet fields "parameterGroups"
      (.obj (setGroups gs items))))) r =
      some (.obj (dictSet fields "parameterGroups" (.obj (setGroups gs items)))) ∧
    update_parameter_group fs (.obj fields) scenario bopt =
      .ok (.obj (dictSet fields "parameterGroups" (.obj (setGroups gs items)))) := by
  refine ⟨?_, heapGet_heapSet_self _ _ _, ?_⟩
  · rcases hopt with ⟨rfl, rfl⟩ | ⟨rfl, rfl⟩ <;>
      simp [update_parameter_group_ref, hfile, hparse, dictGetDefault, hitems, itemsOf,
        Bind.bind, Except.bind, Pure.pure, Except.pure,
        applyGroupsRef_ok items heap r fields gs hheap hpg]
  · rcases hopt with ⟨rfl, rfl⟩ | ⟨rfl, rfl⟩ <;>
      simp [update_parameter_group, hfile, hparse, dictGetDefault, hitems, itemsOf,
        Bind.bind, Except.bind, Pure.pure, Except.pure,
        applyGroups_ok items fields gs hpg]

/-- Witness for C9 at a one-cell heap holding the template fixture. -/
theorem C9_in_place_mutation_witness :
    update_parameter_group_ref testFs [(0, tmplJson)] 0 "scenario1" (some "disable") =
      .ok (0, heapSet [(0, tmplJson)] 0 (.obj (dictSet tmplFields "parameterGroups"
        (.obj (setGroups tmplGroups patchItems))))) :=
  (C9_in_place_mutation testFs [(0, tmplJson)] 0 tmplFields tmplGroups
    [("parameterGroups", .obj patchItems)] patchItems "scenario1"
    ("scenario1" ++ "_disabled.json") (dumpsJson patchJson) (some "disable")
    (Or.inl ⟨rfl, rfl⟩) (by rfl) (by rfl) (by rfl) (by rfl) (by rfl)).1

/-- C10: the three return shapes of `get_remote_config`, for any response
whose body parses as JSON: with no ETag header it returns the pair
`(None, None)`; with an ETag and status 200 it returns the pair of the etag
and the snapshot filename; with an ETag and any other status it returns
Python `None`, so a caller unpacking the result into two variables raises a
TypeError. -/
theorem C10_return_shapes (w : World) (t : Json)
    (hbody : loadsJson w.getResp.body = some t) :
    (w.getResp.etag = none → (get_remote_config w).2 = .ok (.pair none none)) ∧
    (∀ e, w.getResp.etag = some e → w.getResp.status = 200 →
      (get_remote_config w).2 =
        .ok (.pair (some e) (some ("config_" ++ w.timestamp ++ ".json")))) ∧
    (∀ e, w.getResp.etag = some e → w.getResp.status ≠ 200 →
      (get_remote_config w).2 = .ok .retNone ∧
      unpack2 .retNone = .error .typeError) := by
  refine ⟨?_, ?_, ?_⟩
  · intro he
    simp [get_remote_config, hbody, he]
  · intro e he hs
    simp [get_remote_config, hbody, he, hs, save_remote_config]
  · intro e he hs
    exact ⟨by simp [get_remote_config, hbody, he, hs], rfl⟩

/-- Witness for C10: the non-200-with-ETag shape and the unpacking failure. -/
theorem C10_return_shapes_witness :
    (get_remote_config wFetchFail).2 = .ok .retNone ∧
    unpack2 .retNone = .error .typeError :=
  (C10_return_shapes wFetchFail tmplJson (by rfl)).2.2 "etag-1" rfl (by decide)
